import Mathlib

/-!
Verification development for the mp4-info box parser (`src/index.js`).

The JavaScript source is embedded shallowly:
* byte buffers are `List Nat` (each entry is coerced `% 256` exactly where the
  source constructs a `Uint8Array` view);
* `Array.prototype.slice` / `ArrayBuffer.slice` become `jsSlice` (clamping);
* the callback-with-error style becomes `Except Err`; the `ensureArrayBuffer`
  step is the identity on in-memory buffers, so the leaf decoders, which can
  only fail through it, become total functions;
* JavaScript 32-bit shift semantics in `bytesToNumber` are modelled with an
  explicit `% 2 ^ 32`.
-/

set_option maxRecDepth 100000

namespace Mp4Info

/-- Errors raised by the parser (`new Error('Invalid Atom Type')` /
`new Error('Invalid Atom Size')` in the source).  The byte-source read
failure cannot occur on the in-memory (`Array`/`ArrayBuffer`) path that is
modelled here, because `ensureArrayBuffer` is the identity there. -/
inductive Err where
  | invalidAtomType
  | invalidAtomSize
deriving DecidableEq, Repr

/-- `data.slice(s, e)` on an array-like: the elements with indices in
`[s, e)`, clamped to the actual length. -/
def jsSlice (l : List Nat) (s e : Nat) : List Nat :=
  (l.take e).drop s

/-- `bytesToNumber` (src/index.js:12).  The accumulator step is
`num = (num << 8) >>> 0; num += bytes[i]`; JavaScript's `<<`/`>>>` work on
32-bit integers, so each shift truncates the accumulator modulo `2 ^ 32`.
The `new Uint8Array(bytes)` view coerces every element modulo 256. -/
def bytesToNumber (bytes : List Nat) : Nat :=
  (bytes.map (· % 256)).foldl (fun num b => num * 256 % 2 ^ 32 + b) 0

/-- `bytesToString` (src/index.js:29): appends `String.fromCharCode(b)` for
each non-zero byte `b` and nothing for a zero byte. -/
def bytesToString (bytes : List Nat) : String :=
  (bytes.map (· % 256)).foldl (fun str b => if b ≠ 0 then str.push (Char.ofNat b) else str) ""

/-- Decoded `mvhd` payload (src/index.js:136). -/
structure MvhdData where
  creationTime : Nat
  modificationTime : Nat
  timeScale : Nat
  duration : Nat
  preferredRate : Nat
  preferredVolume : Nat
deriving DecidableEq, Repr

/-- Decoded `hdlr` payload (src/index.js:163). -/
structure HdlrData where
  type : String
  subtype : String
  name : String
deriving DecidableEq, Repr

/-- Decoded `mdhd` payload (src/index.js:187). -/
structure MdhdData where
  creationTime : Nat
  modificationTime : Nat
  timeScale : Nat
  duration : Nat
  language : Nat
deriving DecidableEq, Repr

/-- Decoded `stsd` payload (src/index.js:213). -/
structure StsdData where
  format : String
  width : Nat
  height : Nat
  resolution : Nat
deriving DecidableEq, Repr

/-- Decoded `stsz` payload (src/index.js:243). -/
structure StszData where
  sampleSize : Nat
  sampleCount : Nat
deriving DecidableEq, Repr

/-- The `data` property attached to a recognized leaf atom; `none` for
container atoms and unrecognized leaf atoms. -/
inductive AtomData where
  | none
  | mvhd (d : MvhdData)
  | hdlr (d : HdlrData)
  | mdhd (d : MdhdData)
  | stsd (d : StsdData)
  | stsz (d : StszData)
deriving DecidableEq, Repr

/-- A parsed atom: the header fields `size`/`type`, the `atoms` child list
(present exactly for container types) and the decoded `data` payload. -/
inductive Atom where
  | mk (size : Nat) (type : String) (children : Option (List Atom)) (data : AtomData)

/-- The declared `size` of the atom, after sentinel resolution. -/
def Atom.size : Atom → Nat
  | .mk s _ _ _ => s

/-- The 4-character type tag of the atom. -/
def Atom.type : Atom → String
  | .mk _ t _ _ => t

/-- The child atoms (`atom.atoms` in the source), present for containers. -/
def Atom.children : Atom → Option (List Atom)
  | .mk _ _ c _ => c

/-- The decoded payload (`atom.data` in the source). -/
def Atom.data : Atom → AtomData
  | .mk _ _ _ d => d

/-- Header record returned by `consumeAtomHeader`: the source builds
`{size, type}` (the local `headerSize` is only used for validation). -/
structure AtomHeader where
  size : Nat
  type : String
deriving DecidableEq, Repr

/-- The 16 header bytes sliced at the cursor: `data.slice(start, start + 16)`. -/
def headerBuff (data : List Nat) (s : Nat) : List Nat :=
  jsSlice data s (s + 16)

/-- The raw 32-bit size field: `bytesToNumber(buff.slice(0, 4))`. -/
def atomRawSizeAt (data : List Nat) (s : Nat) : Nat :=
  bytesToNumber (jsSlice (headerBuff data s) 0 4)

/-- The type tag: `bytesToString(buff.slice(4, 8))`. -/
def atomTypeAt (data : List Nat) (s : Nat) : String :=
  bytesToString (jsSlice (headerBuff data s) 4 8)

/-- The applicable header size: 16 when the 64-bit sentinel `1` is declared,
8 otherwise (the sentinel `0` keeps `headerSize = 8`). -/
def atomHeaderSizeAt (data : List Nat) (s : Nat) : Nat :=
  if atomRawSizeAt data s = 1 then 16 else 8

/-- The resolved size: sentinel `0` means "rest of the enclosing range",
sentinel `1` means "read bytes `[8,16)` of the header as a 64-bit size",
anything else is taken literally. -/
def atomSizeAt (data : List Nat) (s e : Nat) : Nat :=
  if atomRawSizeAt data s = 0 then e - s
  else if atomRawSizeAt data s = 1 then bytesToNumber (jsSlice (headerBuff data s) 8 16)
  else atomRawSizeAt data s

/-- `consumeAtomHeader` (src/index.js:79): validates the type tag, resolves
the size sentinels and checks `headerSize ≤ size ≤ end - start`.  The
`Number.isNaN` check of the source can never fire on an in-memory buffer
(`bytesToNumber` always returns a number) and is omitted. -/
def consumeAtomHeader (data : List Nat) (s e : Nat) : Except Err AtomHeader :=
  if (atomTypeAt data s).length ≠ 4 then .error .invalidAtomType
  else if atomSizeAt data s e < atomHeaderSizeAt data s then .error .invalidAtomSize
  else if e - s < atomSizeAt data s e then .error .invalidAtomSize
  else .ok ⟨atomSizeAt data s e, atomTypeAt data s⟩

/-- `consumeMvhd` (src/index.js:136): fixed-offset fields of
`data.slice(start, start + 26)`.  The `end` argument is unused, as in the
source. -/
def consumeMvhd (data : List Nat) (s e : Nat) : MvhdData :=
  let _ := e
  let buff := jsSlice data s (s + 26)
  { creationTime := bytesToNumber (jsSlice buff 4 8)
    modificationTime := bytesToNumber (jsSlice buff 8 12)
    timeScale := bytesToNumber (jsSlice buff 12 16)
    duration := bytesToNumber (jsSlice buff 16 20)
    preferredRate := bytesToNumber (jsSlice buff 20 24)
    preferredVolume := bytesToNumber (jsSlice buff 24 26) }

/-- `consumeHdlr` (src/index.js:163).  Note the source's
`buff.slice(12, end)` uses the absolute `end`, which clamps to the buffer
length; this is kept verbatim. -/
def consumeHdlr (data : List Nat) (s e : Nat) : HdlrData :=
  let buff := jsSlice data s e
  { type := bytesToString (jsSlice buff 4 8)
    subtype := bytesToString (jsSlice buff 8 12)
    name := bytesToString (jsSlice buff 12 e) }

/-- `consumeMdhd` (src/index.js:187). -/
def consumeMdhd (data : List Nat) (s e : Nat) : MdhdData :=
  let _ := e
  let buff := jsSlice data s (s + 22)
  { creationTime := bytesToNumber (jsSlice buff 4 8)
    modificationTime := bytesToNumber (jsSlice buff 8 12)
    timeScale := bytesToNumber (jsSlice buff 12 16)
    duration := bytesToNumber (jsSlice buff 16 20)
    language := bytesToNumber (jsSlice buff 20 22) }

/-- `consumeStsd` (src/index.js:213). -/
def consumeStsd (data : List Nat) (s e : Nat) : StsdData :=
  let _ := e
  let buff := jsSlice data s (s + 48)
  { format := bytesToString (jsSlice buff 12 16)
    width := bytesToNumber (jsSlice buff 40 42)
    height := bytesToNumber (jsSlice buff 42 44)
    resolution := bytesToNumber (jsSlice buff 44 46) }

/-- `consumeStsz` (src/index.js:243). -/
def consumeStsz (data : List Nat) (s e : Nat) : StszData :=
  let _ := e
  let buff := jsSlice data s (s + 12)
  { sampleSize := bytesToNumber (jsSlice buff 4 8)
    sampleCount := bytesToNumber (jsSlice buff 8 12) }

/-- The container type tags of the `switch` in `consumeAtoms`
(src/index.js:295-300). -/
def containerTypes : List String :=
  ["moov", "trak", "mdia", "minf", "dinf", "stbl"]

/-- Builds the atom for a recognized or unrecognized leaf type
(src/index.js:314-371): the matching body decoder's record is attached as
`data`; unrecognized types keep only the header fields. -/
def leafAtom (data : List Nat) (hdr : AtomHeader) (atomStart atomEnd : Nat) : Atom :=
  if hdr.type = "mvhd" then .mk hdr.size hdr.type Option.none (.mvhd (consumeMvhd data atomStart atomEnd))
  else if hdr.type = "hdlr" then .mk hdr.size hdr.type Option.none (.hdlr (consumeHdlr data atomStart atomEnd))
  else if hdr.type = "mdhd" then .mk hdr.size hdr.type Option.none (.mdhd (consumeMdhd data atomStart atomEnd))
  else if hdr.type = "stsd" then .mk hdr.size hdr.type Option.none (.stsd (consumeStsd data atomStart atomEnd))
  else if hdr.type = "stsz" then .mk hdr.size hdr.type Option.none (.stsz (consumeStsz data atomStart atomEnd))
  else .mk hdr.size hdr.type Option.none .none

/-- `consumeAtoms` (src/index.js:268), fuel-indexed so that the recursion is
structural and computes in the kernel.  One unit of fuel is spent per parsed
atom; `consumeAtomsGo_congr` below proves that any fuel `≥ end - start`
yields the same result, so the artificial out-of-fuel branch (which returns
an error) is unreachable from `consumeAtoms`, which supplies `end - start`.
The loop-with-mutation of the source becomes: header at `n`, then
`atomStart = n + 8`, `atomEnd = n + atom.size` (the source uses `n + 8`
unconditionally, even for 16-byte headers), recursion into
`[atomStart, atomEnd)` for containers, body decode for recognized leaves,
then the sibling loop continues at `atomEnd`. -/
def consumeAtomsGo : Nat → List Nat → Nat → Nat → Except Err (List Atom)
  | 0, _, n, e => if e ≤ n then .ok [] else .error .invalidAtomSize
  | f + 1, data, n, e =>
    if e ≤ n then .ok []
    else
      match consumeAtomHeader data n e with
      | .error err => .error err
      | .ok hdr =>
        match (if containerTypes.contains hdr.type then
                (consumeAtomsGo f data (n + 8) (n + hdr.size)).map
                  (fun cs => Atom.mk hdr.size hdr.type (some cs) .none)
               else .ok (leafAtom data hdr (n + 8) (n + hdr.size))) with
        | .error err => .error err
        | .ok a =>
          match consumeAtomsGo f data (n + hdr.size) e with
          | .error err => .error err
          | .ok rest => .ok (a :: rest)

/-- `consumeAtoms(data, start, end, callback)`: the fuel `end - start` is
always sufficient (see `consumeAtomsGo_congr`). -/
def consumeAtoms (data : List Nat) (s e : Nat) : Except Err (List Atom) :=
  consumeAtomsGo (e - s) data s e

/-- `forAtoms` (src/index.js:382): the atoms of a given type, in order; an
absent (`undefined`) list contributes nothing. -/
def forAtoms (atoms : Option (List Atom)) (t : String) : List Atom :=
  match atoms with
  | Option.none => []
  | some l => l.filter (fun a => a.type == t)

/-- The aggregator's result object (src/index.js:396-466); every field is
absent until assigned.  `duration` and `frameRate` are the source's float
divisions, modelled in `ℚ` (exact for the division-free-of-rounding cases
the program's spec describes). -/
structure Mp4Result where
  duration : Option ℚ := Option.none
  width : Option Nat := Option.none
  height : Option Nat := Option.none
  resolution : Option Nat := Option.none
  frameRate : Option ℚ := Option.none
  atoms : List Atom := []

/-- Projection used by the aggregator where the source reads
`atom.data.duration` etc. on an atom found under the `mvhd` type filter; a
tree built by the parser always carries the matching payload there. -/
def AtomData.mvhdD : AtomData → MvhdData
  | .mvhd d => d
  | _ => ⟨0, 0, 0, 0, 0, 0⟩

/-- Projection for `hdlr` payload access. -/
def AtomData.hdlrD : AtomData → HdlrData
  | .hdlr d => d
  | _ => ⟨"", "", ""⟩

/-- Projection for `mdhd` payload access. -/
def AtomData.mdhdD : AtomData → MdhdData
  | .mdhd d => d
  | _ => ⟨0, 0, 0, 0, 0⟩

/-- Projection for `stsd` payload access. -/
def AtomData.stsdD : AtomData → StsdData
  | .stsd d => d
  | _ => ⟨"", 0, 0, 0⟩

/-- Projection for `stsz` payload access. -/
def AtomData.stszD : AtomData → StszData
  | .stsz d => d
  | _ => ⟨0, 0⟩

/-- JavaScript truthiness of the optional numeric locals (`if (width)` …):
present and non-zero. -/
def truthy : Option Nat → Bool
  | some n => n != 0
  | Option.none => false

/-- The `mvhd` step of the aggregator (src/index.js:402-404):
`result.duration = atom.data.duration / atom.data.timeScale`. -/
def processMvhd (r : Mp4Result) (a : Atom) : Mp4Result :=
  { r with duration := some ((a.data.mvhdD.duration : ℚ) / (a.data.mvhdD.timeScale : ℚ)) }

/-- The `var subtype; forAtoms(…, 'hdlr', …)` loop (src/index.js:411-414):
the last `hdlr` child's subtype, or `undefined` when there is none. -/
def hdlrSubtypeOf (mdia : Atom) : Option String :=
  (forAtoms mdia.children "hdlr").foldl (fun _ a => some a.data.hdlrD.subtype) Option.none

/-- Accumulator for the nested `minf → stbl → stsd/stsz` loops of the
aggregator: the `var width/height/resolution/sampleCount` locals. -/
structure TrackVals where
  width : Option Nat := Option.none
  height : Option Nat := Option.none
  resolution : Option Nat := Option.none
  sampleCount : Option Nat := Option.none

/-- The per-`mdia` body of the aggregator (src/index.js:407-460): skip the
track unless its handler subtype is `"vide"`, collect the track locals, then
assign each result field only when the collected value is truthy. -/
def processMdia (r : Mp4Result) (mdia : Atom) : Mp4Result :=
  if hdlrSubtypeOf mdia ≠ some "vide" then r
  else
    let tsDur := (forAtoms mdia.children "mdhd").foldl
      (fun _ a => (some a.data.mdhdD.timeScale, some a.data.mdhdD.duration))
      ((Option.none : Option Nat), (Option.none : Option Nat))
    let v := (forAtoms mdia.children "minf").foldl (fun v minf =>
      (forAtoms minf.children "stbl").foldl (fun v stbl =>
        let v := (forAtoms stbl.children "stsd").foldl (fun v a =>
          { v with width := some a.data.stsdD.width
                   height := some a.data.stsdD.height
                   resolution := some a.data.stsdD.resolution }) v
        (forAtoms stbl.children "stsz").foldl (fun v a =>
          { v with sampleCount := some a.data.stszD.sampleCount }) v) v)
      ({} : TrackVals)
    let r := if truthy v.width then { r with width := v.width } else r
    let r := if truthy v.height then { r with height := v.height } else r
    let r := if truthy v.resolution then { r with resolution := v.resolution } else r
    if truthy v.sampleCount && truthy tsDur.1 && truthy tsDur.2 then
      { r with frameRate := some (((v.sampleCount.getD 0 : ℚ) * (tsDur.1.getD 0 : ℚ)) / (tsDur.2.getD 0 : ℚ)) }
    else r

/-- The per-`trak` loop body (src/index.js:406-461). -/
def processTrak (r : Mp4Result) (t : Atom) : Mp4Result :=
  (forAtoms t.children "mdia").foldl processMdia r

/-- The per-`moov` loop body (src/index.js:400-463). -/
def processMoov (r : Mp4Result) (moov : Atom) : Mp4Result :=
  let r := (forAtoms moov.children "mvhd").foldl processMvhd r
  (forAtoms moov.children "trak").foldl processTrak r

/-- `getMp4InfoFromAtoms` (src/index.js:396). -/
def getMp4InfoFromAtoms (atoms : List Atom) : Mp4Result :=
  (forAtoms (some atoms) "moov").foldl processMoov {}

/-- `getMp4Info` (src/index.js:476) on the in-memory (array) path: parse the
whole buffer, aggregate, and attach the full tree as `result.atoms`.  The
parse failure is handed to the caller unchanged. -/
def getMp4Info (file : List Nat) : Except Err Mp4Result :=
  (consumeAtoms file 0 file.length).map
    (fun atoms => { getMp4InfoFromAtoms atoms with atoms := atoms })

/-! ### Concrete byte-level fixtures -/

/-- Big-endian 16-bit encoding of `v`. -/
def u16 (v : Nat) : List Nat :=
  [v / 2 ^ 8 % 256, v % 256]

/-- Big-endian 32-bit encoding of `v`. -/
def u32 (v : Nat) : List Nat :=
  [v / 2 ^ 24 % 256, v / 2 ^ 16 % 256, v / 2 ^ 8 % 256, v % 256]

/-- Big-endian 64-bit encoding of `v`. -/
def u64 (v : Nat) : List Nat :=
  u32 (v / 2 ^ 32) ++ u32 (v % 2 ^ 32)

/-- The bytes of a 4-character tag. -/
def tagBytes (s : String) : List Nat :=
  s.data.map Char.toNat

/-- A 34-byte `mvhd` box: version/flags, creation, modification, `timeScale`,
`duration`, preferred rate, preferred volume. -/
def mvhdBox (ts dur : Nat) : List Nat :=
  u32 34 ++ tagBytes "mvhd" ++ [0, 0, 0, 0] ++ u32 0 ++ u32 0 ++ u32 ts ++ u32 dur ++ u32 0 ++ [0, 0]

/-- A 20-byte `hdlr` box: version/flags, component type, subtype. -/
def hdlrBox (sub : String) : List Nat :=
  u32 20 ++ tagBytes "hdlr" ++ [0, 0, 0, 0] ++ tagBytes "mhlr" ++ tagBytes sub

/-- A 30-byte `mdhd` box. -/
def mdhdBox (ts dur : Nat) : List Nat :=
  u32 30 ++ tagBytes "mdhd" ++ [0, 0, 0, 0] ++ u32 0 ++ u32 0 ++ u32 ts ++ u32 dur ++ [0, 0]

/-- A 56-byte `stsd` box with width/height/resolution at payload offsets
40/42/44. -/
def stsdBox (w h r : Nat) : List Nat :=
  u32 56 ++ tagBytes "stsd" ++ List.replicate 12 0 ++ tagBytes "avc1" ++ List.replicate 24 0
    ++ u16 w ++ u16 h ++ u16 r ++ [0, 0]

/-- A 20-byte `stsz` box with the given sample count. -/
def stszBox (sc : Nat) : List Nat :=
  u32 20 ++ tagBytes "stsz" ++ [0, 0, 0, 0] ++ u32 0 ++ u32 sc

/-- An 84-byte `stbl` container holding the `stsd` and `stsz` boxes. -/
def stblBox (w h r sc : Nat) : List Nat :=
  u32 84 ++ tagBytes "stbl" ++ stsdBox w h r ++ stszBox sc

/-- A 92-byte `minf` container. -/
def minfBox (w h r sc : Nat) : List Nat :=
  u32 92 ++ tagBytes "minf" ++ stblBox w h r sc

/-- A 150-byte `mdia` container: `hdlr`, `mdhd`, `minf`. -/
def mdiaBox (sub : String) (w h r ts dur sc : Nat) : List Nat :=
  u32 150 ++ tagBytes "mdia" ++ hdlrBox sub ++ mdhdBox ts dur ++ minfBox w h r sc

/-- A 158-byte `trak` container. -/
def trakBox (sub : String) (w h r ts dur sc : Nat) : List Nat :=
  u32 158 ++ tagBytes "trak" ++ mdiaBox sub w h r ts dur sc

/-- A 200-byte file consisting of one `moov` with an `mvhd` and one track. -/
def moovFile (sub : String) (w h r ts dur sc : Nat) : List Nat :=
  u32 200 ++ tagBytes "moov" ++ mvhdBox ts dur ++ trakBox sub w h r ts dur sc

/-- The minimal synthetic video file of the spec's end-to-end property. -/
def syntheticFile : List Nat :=
  moovFile "vide" 640 480 72 600 1200 60

/-- The same file with an audio (`soun`) handler subtype. -/
def sounFile : List Nat :=
  moovFile "soun" 640 480 72 600 1200 60

/-- A 24-byte buffer: a `moov` container declaring size 24 whose single
child declares size 20, exceeding the 16 bytes the container has left. -/
def overflowFile : List Nat :=
  u32 24 ++ tagBytes "moov" ++ u32 20 ++ tagBytes "free" ++ List.replicate 8 0

/-- A 32-byte buffer: `moov{trak{…}}` where the atom nested at depth 2
declares size 20 with only 16 bytes remaining. -/
def nestedBadFile : List Nat :=
  u32 32 ++ tagBytes "moov" ++ u32 24 ++ tagBytes "trak" ++ u32 20 ++ tagBytes "free"
    ++ List.replicate 8 0

/-- A 42-byte buffer holding a single `mvhd` box that uses the 64-bit size
sentinel: 4-byte size field `1`, type, 8-byte extended size `42`, then a
26-byte `mvhd` payload with `creationTime = 77`, `timeScale = 600`,
`duration = 1200`. -/
def size64File : List Nat :=
  u32 1 ++ tagBytes "mvhd" ++ u64 42 ++ [0, 0, 0, 0] ++ u32 77 ++ u32 0 ++ u32 600 ++ u32 1200
    ++ u32 0 ++ [0, 0]

/-- A 20-byte buffer: an 8-byte `free` box followed by a box at offset 8
declaring the size-sentinel `0`. -/
def zeroSentinelFile : List Nat :=
  u32 8 ++ tagBytes "free" ++ u32 0 ++ tagBytes "mdat" ++ [1, 2, 3, 4]

/-- A single well-formed 16-byte box, used as a witness input. -/
def okFile : List Nat :=
  u32 16 ++ tagBytes "free" ++ List.replicate 8 0

/-! ### Parsed-tree fixtures for the aggregator claims -/

/-- A parsed `hdlr` atom with the given subtype. -/
def hdlrAtomT (sub : String) : Atom :=
  .mk 20 "hdlr" Option.none (.hdlr ⟨"mhlr", sub, ""⟩)

/-- A parsed `mdhd` atom with the given time scale and duration. -/
def mdhdAtomT (ts dur : Nat) : Atom :=
  .mk 30 "mdhd" Option.none (.mdhd ⟨0, 0, ts, dur, 0⟩)

/-- A parsed `stsd` atom with the given width, height and resolution. -/
def stsdAtomT (w h r : Nat) : Atom :=
  .mk 56 "stsd" Option.none (.stsd ⟨"avc1", w, h, r⟩)

/-- A parsed `stsz` atom with the given sample count. -/
def stszAtomT (sc : Nat) : Atom :=
  .mk 20 "stsz" Option.none (.stsz ⟨0, sc⟩)

/-- A parsed `stbl` container atom. -/
def stblAtomT (w h r sc : Nat) : Atom :=
  .mk 84 "stbl" (some [stsdAtomT w h r, stszAtomT sc]) .none

/-- A parsed `minf` container atom. -/
def minfAtomT (w h r sc : Nat) : Atom :=
  .mk 92 "minf" (some [stblAtomT w h r sc]) .none

/-- A parsed `mdia` container atom with handler subtype `sub`. -/
def mdiaAtomT (sub : String) (w h r ts dur sc : Nat) : Atom :=
  .mk 150 "mdia" (some [hdlrAtomT sub, mdhdAtomT ts dur, minfAtomT w h r sc]) .none

/-- A parsed `trak` container atom. -/
def trakAtomT (sub : String) (w h r ts dur sc : Nat) : Atom :=
  .mk 158 "trak" (some [mdiaAtomT sub w h r ts dur sc]) .none

/-- A parsed `moov` container atom holding the given children. -/
def moovAtomT (children : List Atom) : Atom :=
  .mk 0 "moov" (some children) .none

/-! ### Shared lemmas -/

/-- A header accepted by `consumeAtomHeader` satisfies the validated bounds:
its size is at least 8 (at least the applicable header size) and at most the
remaining bytes of the enclosing range, and it carries exactly the resolved
size and type. -/
theorem consumeAtomHeader_ok_bounds {data : List Nat} {n e : Nat} {hdr : AtomHeader}
    (h : consumeAtomHeader data n e = .ok hdr) :
    8 ≤ hdr.size ∧ hdr.size ≤ e - n ∧ hdr.size = atomSizeAt data n e
      ∧ hdr.type = atomTypeAt data n := by
  unfold consumeAtomHeader at h
  split at h
  · exact absurd h (by simp)
  · split at h
    · exact absurd h (by simp)
    · split at h
      · exact absurd h (by simp)
      · rename_i h1 h2 h3
        injection h with h4
        subst h4
        dsimp only
        refine ⟨?_, by omega, rfl, rfl⟩
        unfold atomHeaderSizeAt at h2
        split at h2 <;> omega

/-- An exhausted range parses to the empty atom list, whatever the fuel. -/
theorem consumeAtomsGo_of_le (f : Nat) (data : List Nat) {n e : Nat} (h : e ≤ n) :
    consumeAtomsGo f data n e = .ok [] := by
  cases f <;> simp [consumeAtomsGo, h]

/-- Fuel-irrelevance: any fuel of at least `e - n` (one unit per byte of the
range, while each parsed atom consumes at least 8 bytes) produces the same
parse result.  This is the termination argument of the recursive descent:
the parse of `[n, e)` completes within `e - n` steps. -/
theorem consumeAtomsGo_congr : ∀ (f₁ f₂ : Nat) (data : List Nat) (n e : Nat),
    e - n ≤ f₁ → e - n ≤ f₂ →
    consumeAtomsGo f₁ data n e = consumeAtomsGo f₂ data n e := by
  intro f₁
  induction f₁ with
  | zero =>
    intro f₂ data n e h1 h2
    have hle : e ≤ n := by omega
    rw [consumeAtomsGo_of_le 0 data hle, consumeAtomsGo_of_le f₂ data hle]
  | succ f ih =>
    intro f₂ data n e h1 h2
    by_cases hne : e ≤ n
    · rw [consumeAtomsGo_of_le _ data hne, consumeAtomsGo_of_le _ data hne]
    · obtain ⟨g, rfl⟩ : ∃ g, f₂ = g + 1 := ⟨f₂ - 1, by omega⟩
      cases hh : consumeAtomHeader data n e with
      | error err => simp only [consumeAtomsGo, hne, if_false, hh]
      | ok hdr =>
        obtain ⟨h8, hsz, -, -⟩ := consumeAtomHeader_ok_bounds hh
        have hchild : consumeAtomsGo f data (n + 8) (n + hdr.size)
            = consumeAtomsGo g data (n + 8) (n + hdr.size) :=
          ih g data (n + 8) (n + hdr.size) (by omega) (by omega)
        have hsib : consumeAtomsGo f data (n + hdr.size) e
            = consumeAtomsGo g data (n + hdr.size) e :=
          ih g data (n + hdr.size) e (by omega) (by omega)
        simp only [consumeAtomsGo, hne, if_false, hh, hchild, hsib]

/-- The string-building fold appends exactly the characters of the non-zero
bytes to the accumulator. -/
theorem bytesToString_foldl (l : List Nat) :
    ∀ s : String,
      l.foldl (fun str b => if b ≠ 0 then str.push (Char.ofNat b) else str) s
        = ⟨s.data ++ (l.filter (fun b => b ≠ 0)).map Char.ofNat⟩ := by
  induction l with
  | nil => intro s; simp
  | cons b t ih =>
    intro s
    by_cases hb : b = 0
    · subst hb
      simp only [List.foldl_cons, List.filter_cons]
      rw [if_neg (by simp)]
      simpa using ih s
    · simp only [List.foldl_cons, List.filter_cons]
      rw [if_pos (by simpa using hb), if_pos (by simpa using hb)]
      rw [ih]
      simp [String.push]

/-- `bytesToString` is the characters of the non-zero coerced bytes, in
order: nulls are elided wherever they occur and decoding never stops early. -/
theorem bytesToString_eq (bytes : List Nat) :
    bytesToString bytes
      = ⟨((bytes.map (· % 256)).filter (fun b => b ≠ 0)).map Char.ofNat⟩ := by
  unfold bytesToString
  rw [bytesToString_foldl]
  rfl

/-! ### Claim theorems -/

/-- C2 (code bug): `bytesToNumber` matches the standard big-endian
interpretation only up to 4 bytes.  The JavaScript `<<`/`>>>` shift works on
32-bit integers, so for 8-byte input the accumulated value is truncated
modulo `2 ^ 32` at every shift: `[0,0,0,1,0,0,0,0]` decodes to `0`, not
`2 ^ 32`, and collides with the all-zero 8-byte input, so the function is
neither exact nor injective on 8-byte inputs. -/
theorem claim2_bytesToNumber_truncated :
    bytesToNumber [0x00, 0x00, 0x01, 0x00] = 256
    ∧ bytesToNumber [0, 0, 0, 1, 0, 0, 0, 0] = 0
    ∧ bytesToNumber [0, 0, 0, 1, 0, 0, 0, 0] ≠ 2 ^ 32
    ∧ bytesToNumber [0, 0, 0, 1, 0, 0, 0, 0] = bytesToNumber [0, 0, 0, 0, 0, 0, 0, 0] :=
  ⟨by decide, by decide, by decide, by decide⟩

/-- C3 (code bug): for a box declaring the 64-bit size sentinel the header
reader does resolve the size from bytes `[8,16)` with an effective header
size of 16, but `consumeAtoms` computes `atomStart = n + 8` unconditionally,
so the payload decode starts 8 bytes after the box start and reads the
extended-size bytes as payload: on `size64File` the decoded `creationTime`
is 42 (the low word of the extended size) instead of the 77 stored at the
16-byte-header payload position. -/
theorem claim3_payload_start_ignores_headerSize :
    consumeAtomHeader size64File 0 42 = .ok ⟨42, "mvhd"⟩
    ∧ atomHeaderSizeAt size64File 0 = 16
    ∧ consumeAtoms size64File 0 42
        = .ok [Atom.mk 42 "mvhd" Option.none (.mvhd (consumeMvhd size64File 8 42))]
    ∧ consumeMvhd size64File 8 42 ≠ consumeMvhd size64File 16 42
    ∧ (consumeMvhd size64File 8 42).creationTime = 42
    ∧ (consumeMvhd size64File 16 42).creationTime = 77 :=
  ⟨rfl, by decide, rfl, by decide, by decide, by decide⟩

/-- C4: parsing the minimal synthetic file
`moov{mvhd(600,1200), trak{mdia{hdlr(vide), mdhd(600,1200),
minf{stbl{stsd(640,480,72), stsz(60)}}}}}` succeeds with
`duration = 2`, `width = 640`, `height = 480`, `resolution = 72`,
`frameRate = 30`. -/
theorem claim4_end_to_end_synthetic_file :
    (getMp4Info syntheticFile).map (fun r => (r.width, r.height, r.resolution))
      = .ok (some 640, some 480, some 72)
    ∧ (getMp4Info syntheticFile).map (fun r => r.duration) = .ok (some (2 : ℚ))
    ∧ (getMp4Info syntheticFile).map (fun r => r.frameRate) = .ok (some (30 : ℚ)) := by
  refine ⟨rfl, ?_, ?_⟩
  · have h1 : (getMp4Info syntheticFile).map (fun r => r.duration)
        = .ok (some (((1200 : Nat) : ℚ) / ((600 : Nat) : ℚ))) := rfl
    have hq : ((1200 : Nat) : ℚ) / ((600 : Nat) : ℚ) = 2 := by norm_num
    rw [hq] at h1
    exact h1
  · have h1 : (getMp4Info syntheticFile).map (fun r => r.frameRate)
        = .ok (some (((60 : Nat) : ℚ) * ((600 : Nat) : ℚ) / ((1200 : Nat) : ℚ))) := rfl
    have hq : ((60 : Nat) : ℚ) * ((600 : Nat) : ℚ) / ((1200 : Nat) : ℚ) = 30 := by norm_num
    rw [hq] at h1
    exact h1

/-- C5: a declared 32-bit size of `0` resolves to `end - start` (the bytes
remaining in the enclosing range from the box's own start) with the header
size staying 8; concretely, the last top-level box of `zeroSentinelFile`
(total length 20, box start 8) resolves to size `12 = 20 - 8`. -/
theorem claim5_zero_sentinel :
    (∀ (data : List Nat) (n e : Nat), atomRawSizeAt data n = 0 →
      (atomTypeAt data n).length = 4 →
      atomHeaderSizeAt data n = 8
      ∧ atomSizeAt data n e = e - n
      ∧ (8 ≤ e - n → consumeAtomHeader data n e = .ok ⟨e - n, atomTypeAt data n⟩))
    ∧ consumeAtomHeader zeroSentinelFile 8 20 = .ok ⟨20 - 8, "mdat"⟩
    ∧ (consumeAtoms zeroSentinelFile 0 20).map (List.map (fun a => (a.size, a.type)))
        = .ok [(8, "free"), (12, "mdat")] := by
  refine ⟨?_, rfl, rfl⟩
  intro data n e h0 ht
  have hhs : atomHeaderSizeAt data n = 8 := by
    unfold atomHeaderSizeAt
    rw [if_neg (by omega)]
  have hsz : atomSizeAt data n e = e - n := by
    unfold atomSizeAt
    rw [if_pos h0]
  refine ⟨hhs, hsz, ?_⟩
  intro h8
  unfold consumeAtomHeader
  simp only [hsz, hhs]
  rw [if_neg (by simp [ht]), if_neg (by omega), if_neg (by omega)]

/-- C7: `bytesToString` appends exactly one character per non-zero byte and
nothing for a zero byte, so a 4-byte input yields at most 4 characters and
nulls anywhere are elided without stopping decoding;
`[0x41, 0x00, 0x42, 0x00]` yields `"AB"`. -/
theorem claim7_nulls_elided :
    (∀ bytes : List Nat, bytes.length = 4 →
      (bytesToString bytes).length ≤ 4
      ∧ bytesToString bytes
          = ⟨((bytes.map (· % 256)).filter (fun b => b ≠ 0)).map Char.ofNat⟩)
    ∧ bytesToString [0x41, 0x00, 0x42, 0x00] = "AB" := by
  refine ⟨?_, by decide⟩
  intro bytes hlen
  refine ⟨?_, bytesToString_eq bytes⟩
  rw [bytesToString_eq bytes]
  show (((bytes.map (· % 256)).filter (fun b => b ≠ 0)).map Char.ofNat).length ≤ 4
  rw [List.length_map]
  calc ((bytes.map (· % 256)).filter (fun b => b ≠ 0)).length
      ≤ (bytes.map (· % 256)).length := List.length_filter_le _ _
    _ = bytes.length := List.length_map _ _
    _ = 4 := hlen

/-- C7 witness: the general statement applied to the concrete 4-byte input
`[0x41, 0x00, 0x42, 0x00]`. -/
theorem claim7_witness :
    ([0x41, 0x00, 0x42, 0x00] : List Nat).length = 4
    ∧ (bytesToString [0x41, 0x00, 0x42, 0x00]).length ≤ 4 :=
  ⟨by decide, (claim7_nulls_elided.1 [0x41, 0x00, 0x42, 0x00] (by decide)).1⟩

/-- C1: a box header with a 4-character type whose resolved size lies in
`[headerSize, end - n]` resolves deterministically to the size/type record,
while a resolved size below the header size or above the remaining range
makes the header — and the parse at that cursor — fail with
`InvalidAtomSize`; concretely, `overflowFile` (a `moov` of declared size 24
whose child claims 20 of the 16 remaining bytes) fails the whole parse with
`InvalidAtomSize`. -/
theorem claim1_header_size_validation :
    (∀ (data : List Nat) (n e : Nat), (atomTypeAt data n).length = 4 →
      (atomHeaderSizeAt data n ≤ atomSizeAt data n e ∧ atomSizeAt data n e ≤ e - n →
        consumeAtomHeader data n e = .ok ⟨atomSizeAt data n e, atomTypeAt data n⟩)
      ∧ (atomSizeAt data n e < atomHeaderSizeAt data n ∨ e - n < atomSizeAt data n e →
        consumeAtomHeader data n e = .error .invalidAtomSize
        ∧ (n < e → consumeAtoms data n e = .error .invalidAtomSize)))
    ∧ getMp4Info overflowFile = .error .invalidAtomSize := by
  refine ⟨?_, rfl⟩
  intro data n e ht
  constructor
  · rintro ⟨hge, hle⟩
    unfold consumeAtomHeader
    rw [if_neg (by simp [ht]), if_neg (by omega), if_neg (by omega)]
  · intro hbad
    have herr : consumeAtomHeader data n e = .error .invalidAtomSize := by
      unfold consumeAtomHeader
      rw [if_neg (by simp [ht])]
      by_cases hlt : atomSizeAt data n e < atomHeaderSizeAt data n
      · rw [if_pos hlt]
      · rw [if_neg hlt, if_pos (by omega)]
    refine ⟨herr, ?_⟩
    intro hne
    unfold consumeAtoms
    obtain ⟨k, hk⟩ : ∃ k, e - n = k + 1 := ⟨e - n - 1, by omega⟩
    rw [hk]
    simp only [consumeAtomsGo]
    rw [if_neg (show ¬ e ≤ n by omega), herr]

/-- C1 witness: the in-range branch of the general statement applied to the
well-formed 16-byte box `okFile`. -/
theorem claim1_witness :
    (atomTypeAt okFile 0).length = 4
    ∧ atomHeaderSizeAt okFile 0 ≤ atomSizeAt okFile 0 16
    ∧ atomSizeAt okFile 0 16 ≤ 16 - 0
    ∧ consumeAtomHeader okFile 0 16 = .ok ⟨atomSizeAt okFile 0 16, atomTypeAt okFile 0⟩ :=
  ⟨by decide, by decide, by decide,
    (claim1_header_size_validation.1 okFile 0 16 (by decide)).1 ⟨by decide, by decide⟩⟩

/-- C6: errors abort the whole parse unchanged: a parse error surfaces from
`getMp4Info` exactly as produced, a success carries the complete tree (never
a partial one), an error inside a container's children propagates to the
enclosing level unchanged, and the concrete file whose invalid atom sits at
nesting depth 2 fails with exactly `InvalidAtomSize`. -/
theorem claim6_error_propagation :
    (∀ (file : List Nat) (err : Err),
      consumeAtoms file 0 file.length = .error err → getMp4Info file = .error err)
    ∧ (∀ (file : List Nat) (res : Mp4Result), getMp4Info file = .ok res →
      ∃ atoms, consumeAtoms file 0 file.length = .ok atoms
        ∧ res = { getMp4InfoFromAtoms atoms with atoms := atoms })
    ∧ (∀ (data : List Nat) (n e : Nat) (err : Err) (hdr : AtomHeader), n < e →
      consumeAtomHeader data n e = .ok hdr → hdr.type = "moov" →
      consumeAtoms data (n + 8) (n + hdr.size) = .error err →
      consumeAtoms data n e = .error err)
    ∧ getMp4Info nestedBadFile = .error .invalidAtomSize := by
  refine ⟨?_, ?_, ?_, rfl⟩
  · intro file err h
    unfold getMp4Info
    rw [h]
    rfl
  · intro file res h
    unfold getMp4Info at h
    cases hc : consumeAtoms file 0 file.length with
    | error err => rw [hc] at h; exact absurd h (by simp [Except.map])
    | ok atoms =>
      rw [hc] at h
      simp only [Except.map] at h
      injection h with h2
      exact ⟨atoms, rfl, h2.symm⟩
  · intro data n e err hdr hne hh hmoov hchild
    obtain ⟨h8, hsz, -, -⟩ := consumeAtomHeader_ok_bounds hh
    unfold consumeAtoms at hchild ⊢
    obtain ⟨k, hk⟩ : ∃ k, e - n = k + 1 := ⟨e - n - 1, by omega⟩
    rw [hk]
    simp only [consumeAtomsGo]
    rw [if_neg (show ¬ e ≤ n by omega)]
    have hcont : containerTypes.contains hdr.type = true := by
      rw [hmoov]
      decide
    have hfuel : consumeAtomsGo k data (n + 8) (n + hdr.size)
        = consumeAtomsGo (n + hdr.size - (n + 8)) data (n + 8) (n + hdr.size) :=
      consumeAtomsGo_congr k (n + hdr.size - (n + 8)) data (n + 8) (n + hdr.size)
        (by omega) (by omega)
    simp only [hh, hcont, if_pos, hfuel, hchild]
    rfl

/-- C6 witness: propagation applied to the 1-byte buffer, whose lone header
read fails with `InvalidAtomType`. -/
theorem claim6_witness :
    consumeAtoms [0] 0 ([0] : List Nat).length = .error .invalidAtomType
    ∧ getMp4Info [0] = .error .invalidAtomType :=
  ⟨rfl, claim6_error_propagation.1 [0] .invalidAtomType rfl⟩

/-- C10: the parse terminates on every finite input: every accepted header
has size at least 8 and stays inside the enclosing range, the recursive
child range `[n + 8, n + size)` is strictly shorter than the parent range,
and the fuel-indexed recursion is stable at any fuel of at least `end -
start` — which `consumeAtoms` supplies — so the parse of any range completes
within `end - start` steps, returning a tree or an error. -/
theorem claim10_termination :
    (∀ (data : List Nat) (n e : Nat) (hdr : AtomHeader),
      consumeAtomHeader data n e = .ok hdr →
      8 ≤ hdr.size ∧ n + hdr.size ≤ e ∧ (n + hdr.size) - (n + 8) < e - n)
    ∧ (∀ (f₁ f₂ : Nat) (data : List Nat) (n e : Nat), e - n ≤ f₁ → e - n ≤ f₂ →
      consumeAtomsGo f₁ data n e = consumeAtomsGo f₂ data n e)
    ∧ (∀ (data : List Nat) (n e : Nat),
      consumeAtoms data n e = consumeAtomsGo (e - n) data n e) := by
  refine ⟨?_, consumeAtomsGo_congr, fun _ _ _ => rfl⟩
  intro data n e hdr h
  obtain ⟨h8, hsz, -, -⟩ := consumeAtomHeader_ok_bounds h
  omega

/-- C10 witness: the bounds applied to the accepted header of `okFile`, and
fuel-stability at fuels 5 and 9 on the empty range. -/
theorem claim10_witness :
    (8 ≤ (AtomHeader.mk 16 "free").size
      ∧ 0 + (AtomHeader.mk 16 "free").size ≤ 16
      ∧ (0 + (AtomHeader.mk 16 "free").size) - (0 + 8) < 16 - 0)
    ∧ consumeAtomsGo 5 [] 0 0 = consumeAtomsGo 9 [] 0 0 :=
  ⟨claim10_termination.1 okFile 0 16 ⟨16, "free"⟩ rfl,
    claim10_termination.2.1 5 9 [] 0 0 (by decide) (by decide)⟩

/-- C8: with several qualifying video tracks under one `moov`, the
aggregator visits them in tree order and each later one overwrites the
width/height/resolution/frameRate fields whenever its own values are
truthy — whatever tracks precede it, a final qualifying video track with
non-zero values determines all four fields (last wins); and a later track's
falsy (zero) value does not overwrite, as the concrete two-track instance
shows for `width`. -/
theorem claim8_last_video_track_wins :
    (∀ (pre : List Atom) (w h r ts dur sc : Nat),
      w ≠ 0 → h ≠ 0 → r ≠ 0 → ts ≠ 0 → dur ≠ 0 → sc ≠ 0 →
      (getMp4InfoFromAtoms [moovAtomT (pre ++ [trakAtomT "vide" w h r ts dur sc])]).width = some w
      ∧ (getMp4InfoFromAtoms [moovAtomT (pre ++ [trakAtomT "vide" w h r ts dur sc])]).height = some h
      ∧ (getMp4InfoFromAtoms [moovAtomT (pre ++ [trakAtomT "vide" w h r ts dur sc])]).resolution = some r
      ∧ (getMp4InfoFromAtoms [moovAtomT (pre ++ [trakAtomT "vide" w h r ts dur sc])]).frameRate
          = some (((sc : ℚ) * (ts : ℚ)) / (dur : ℚ)))
    ∧ (getMp4InfoFromAtoms [moovAtomT [trakAtomT "vide" 640 480 72 600 1200 60,
        trakAtomT "vide" 0 481 73 600 1200 60]]).width = some 640
    ∧ (getMp4InfoFromAtoms [moovAtomT [trakAtomT "vide" 640 480 72 600 1200 60,
        trakAtomT "vide" 0 481 73 600 1200 60]]).height = some 481 := by
  refine ⟨?_, by decide, by decide⟩
  intro pre w h r ts dur sc hw hht hr hts hdur hsc
  have hstep : ∀ R : Mp4Result, processTrak R (trakAtomT "vide" w h r ts dur sc)
      = { R with width := some w, height := some h, resolution := some r,
                 frameRate := some (((sc : ℚ) * (ts : ℚ)) / (dur : ℚ)) } := by
    intro R
    simp [processTrak, trakAtomT, processMdia, hdlrSubtypeOf, forAtoms, mdiaAtomT, hdlrAtomT,
          mdhdAtomT, minfAtomT, stblAtomT, stsdAtomT, stszAtomT, Atom.children, Atom.type,
          Atom.data, AtomData.hdlrD, AtomData.mdhdD, AtomData.stsdD, AtomData.stszD, truthy,
          hw, hht, hr, hts, hdur, hsc]
  have htype : (trakAtomT "vide" w h r ts dur sc).type = "trak" := rfl
  have hmtype : (moovAtomT (pre ++ [trakAtomT "vide" w h r ts dur sc])).type = "moov" := rfl
  have hmchild : (moovAtomT (pre ++ [trakAtomT "vide" w h r ts dur sc])).children
      = some (pre ++ [trakAtomT "vide" w h r ts dur sc]) := rfl
  have hne2 : (("trak" : String) == "mvhd") = false := by decide
  have hmain : getMp4InfoFromAtoms [moovAtomT (pre ++ [trakAtomT "vide" w h r ts dur sc])]
      = processTrak ((pre.filter (fun a => a.type == "trak")).foldl processTrak
          ((pre.filter (fun a => a.type == "mvhd")).foldl processMvhd {}))
          (trakAtomT "vide" w h r ts dur sc) := by
    simp only [getMp4InfoFromAtoms, forAtoms, List.filter_cons, List.filter_nil, hmtype,
               beq_self_eq_true, if_true, List.foldl_cons, List.foldl_nil]
    simp only [processMoov, forAtoms, hmchild, List.filter_append, List.foldl_append]
    simp only [List.filter_cons, List.filter_nil, htype, beq_self_eq_true, hne2, if_true,
               if_false, List.foldl_cons, List.foldl_nil]
    simp
  rw [hmain, hstep]
  exact ⟨rfl, rfl, rfl, rfl⟩

/-- C8 witness: the last-wins statement applied with an empty prefix and the
concrete video track (640, 480, 72, 600, 1200, 60). -/
theorem claim8_witness :
    (getMp4InfoFromAtoms [moovAtomT ([] ++ [trakAtomT "vide" 640 480 72 600 1200 60])]).width
      = some 640
    ∧ (getMp4InfoFromAtoms [moovAtomT ([] ++ [trakAtomT "vide" 640 480 72 600 1200 60])]).height
      = some 480 := by
  have h := claim8_last_video_track_wins.1 [] 640 480 72 600 1200 60
    (by decide) (by decide) (by decide) (by decide) (by decide) (by decide)
  exact ⟨h.1, h.2.1⟩

/-- C9: a `mdia` whose handler subtype is not `"vide"` (for example `"soun"`,
or a missing handler) contributes nothing: the per-track step returns the
result unchanged, a `moov` holding only a `soun` track aggregates to the
empty result, and on the byte-level `sounFile` the parsed result has no
width/height/resolution/frameRate (only `duration`, which comes from `mvhd`,
not from the track). -/
theorem claim9_nonvideo_track_skipped :
    (∀ (R : Mp4Result) (mdia : Atom),
      hdlrSubtypeOf mdia ≠ some "vide" → processMdia R mdia = R)
    ∧ (∀ (w h r ts dur sc : Nat),
      getMp4InfoFromAtoms [moovAtomT [trakAtomT "soun" w h r ts dur sc]] = {})
    ∧ (getMp4Info sounFile).map
        (fun r => (r.width, r.height, r.resolution, r.frameRate))
        = .ok (Option.none, Option.none, Option.none, Option.none)
    ∧ (getMp4Info sounFile).map (fun r => r.duration)
        = .ok (some (((1200 : Nat) : ℚ) / ((600 : Nat) : ℚ))) := by
  refine ⟨?_, ?_, rfl, rfl⟩
  · intro R mdia hsub
    unfold processMdia
    rw [if_pos hsub]
  · intro w h r ts dur sc
    simp [getMp4InfoFromAtoms, processMoov, processTrak, processMdia, hdlrSubtypeOf, forAtoms,
          moovAtomT, trakAtomT, mdiaAtomT, hdlrAtomT, mdhdAtomT, minfAtomT, stblAtomT,
          stsdAtomT, stszAtomT, Atom.children, Atom.type, Atom.data, AtomData.hdlrD]

/-- C9 witness: the skip rule applied to an atom with no handler child. -/
theorem claim9_witness :
    hdlrSubtypeOf (Atom.mk 8 "free" Option.none .none) ≠ some "vide"
    ∧ processMdia {} (Atom.mk 8 "free" Option.none .none) = {} :=
  ⟨by decide,
    claim9_nonvideo_track_skipped.1 {} (Atom.mk 8 "free" Option.none .none) (by decide)⟩

/-- C5 witness: the general zero-sentinel statement applied to
`zeroSentinelFile` at start 8 within `[0, 20)`. -/
theorem claim5_witness :
    atomRawSizeAt zeroSentinelFile 8 = 0
    ∧ (atomTypeAt zeroSentinelFile 8).length = 4
    ∧ 8 ≤ 20 - 8
    ∧ consumeAtomHeader zeroSentinelFile 8 20 = .ok ⟨20 - 8, atomTypeAt zeroSentinelFile 8⟩ :=
  ⟨by decide, by decide, by decide,
    (claim5_zero_sentinel.1 zeroSentinelFile 8 20 (by decide) (by decide)).2.2 (by decide)⟩

end Mp4Info
